import Mathlib

/-!
Verification of the stability-sdk animation scheduling core.

The Python sources embedded here are `src/stability_sdk/animation.py` and
`src/stability_sdk/client.py`.  Machine floats are modelled as exact
rationals, images as an abstract type parameter, and the remote backend
as explicit function parameters, so every embedded operation is a pure
Lean function.  The helper module `stability_sdk/matrix.py` is not part
of the provided sources; where its operations are needed they are
modelled from the spec (4x4 homogeneous matrices composed by matrix
multiplication, with the identity matrix as neutral element) and marked
as such.
-/

namespace StabilitySDK

/-- Python `int(x)` applied to a float: truncation toward zero.
For `x >= 0` this is the floor, for `x < 0` the negated floor of `-x`. -/
def pyint (q : ℚ) : ℤ :=
  if 0 ≤ q then ⌊q⌋ else -⌊-q⌋

/-- A per-frame numeric series (the result of expanding a keyframe curve),
modelled as a total function from frame index to value. -/
def FrameSeries : Type := ℕ → ℚ

/-- Embeds `animation.py` lines 437-439 of `Animator.render`:
`steps = int(self.frame_args.steps_series[frame_idx])`. -/
def stepsAt (stepsSeries : FrameSeries) (f : ℕ) : ℤ :=
  pyint (stepsSeries f)

/-- Embeds `animation.py` line 438: `strength = max(0.0, self.frame_args.strength_series[frame_idx])`. -/
def strengthAt (strengthSeries : FrameSeries) (f : ℕ) : ℚ :=
  max 0 (strengthSeries f)

/-- Embeds `animation.py` line 439:
`adjusted_steps = int(max(5, steps*(1.0-strength))) if args.steps_strength_adj else int(steps)`
(`steps` is already an `int`, so the final `int(steps)` is the identity). -/
def adjustedSteps (stepsStrengthAdj : Bool) (stepsSeries strengthSeries : FrameSeries)
    (f : ℕ) : ℤ :=
  let steps := stepsAt stepsSeries f
  let strength := strengthAt strengthSeries f
  if stepsStrengthAdj then pyint (max 5 ((steps : ℚ) * (1 - strength))) else steps

/-- Embeds `animation.py` lines 443-445 of `Animator.render`:
`if len(self.negative_prompt) and self.negative_prompt_weight != 0.0:`
`    prompts.append(self.negative_prompt); weights.append(-abs(self.negative_prompt_weight))`. -/
def appendNegativePrompt (prompts : List String) (weights : List ℚ)
    (negativePrompt : String) (negativePromptWeight : ℚ) : List String × List ℚ :=
  if negativePrompt.length ≠ 0 ∧ negativePromptWeight ≠ 0 then
    (prompts ++ [negativePrompt], weights ++ [-|negativePromptWeight|])
  else
    (prompts, weights)

/-- Interpolation modes of the generation backend (`generation.InterpolateMode`);
`client.py` only branches on whether the mode is `INTERPOLATE_LINEAR`. -/
inductive InterpolateMode
  | linear
  | film
  | rife
  deriving DecidableEq, Repr

/-- Result of an `Api.interpolate` call: the returned images together with the
number of requests sent to the remote backend. -/
structure InterpResult (Img : Type) where
  images : List Img
  backendRequests : ℕ
  deriving DecidableEq, Repr

/-- Embeds `client.py` lines 430-463, `Api.interpolate`, for the two input
images `imageA`, `imageB`.  `backend` stands for the remote
`_run_request(self._interpolate, request)` round trip and `mix` for
`image_mix` (defined in `stability_sdk/utils.py`, not among the provided
sources; it is kept abstract because the embedded code only forwards to it).
`none` models the `assert len(ratios) >= 1` failure. -/
def apiInterpolate {Img : Type}
    (backend : Img → Img → List ℚ → InterpolateMode → List Img)
    (mix : Img → Img → ℚ → Img)
    (imageA imageB : Img) (ratios : List ℚ) (mode : InterpolateMode) :
    Option (InterpResult Img) :=
  match ratios with
  | [] => none
  | [r] =>
    if r = 0 then some ⟨[imageA], 0⟩
    else if r = 1 then some ⟨[imageB], 0⟩
    else if mode = InterpolateMode.linear then some ⟨[mix imageA imageB r], 0⟩
    else some ⟨backend imageA imageB ratios mode, 1⟩
  | _ => some ⟨backend imageA imageB ratios mode, 1⟩

/-- Modelled from the spec: `stability_sdk/matrix.py` is not among the
provided sources; the spec defines a Transform as a 4x4 homogeneous matrix
composable via matrix multiplication. -/
abbrev Mat4 : Type := Matrix (Fin 4) (Fin 4) ℚ

/-- Modelled from the spec: `matrix.multiply`, ordinary matrix multiplication. -/
def matrixMultiply (a b : Mat4) : Mat4 := a * b

/-- Modelled from the spec: `matrix.identity`, the neutral element of
transform composition. -/
def matrixIdentity : Mat4 := 1

/-- Embeds `animation.py` lines 554-555 (`Animator.transform_2d`) and
603-604 (`Animator.transform_3d`), which run the same loop:
`for i in range(len(self.prior_xforms)):`
`    self.prior_xforms[i] = matrix.multiply(xform, self.prior_xforms[i])`. -/
def accumulateXforms (xform : Mat4) (priorXforms : List Mat4) : List Mat4 :=
  priorXforms.map (fun m => matrixMultiply xform m)

/-- The fields of `Animator` touched by the resume block of
`setup_animation` (`animation.py` lines 321-330). -/
structure ResumeState (Img : Type) where
  startFrameIdx : ℕ
  diffusionCadenceOfs : ℕ
  priorFrames : List Img
  priorDiffused : List Img
  deriving DecidableEq, Repr

/-- Embeds `animation.py` lines 321-330 of `Animator.setup_animation`:
`n` is the number of existing `frame_*.png` files in the output directory
(`len(frames)`), `loadFrame k` stands for `cv2.imread(self.get_frame_filename(k))`.
The Python sets `start_frame_idx = len(frames)`, `diffusion_cadence_ofs =
start_frame_idx`, and only when `start_frame_idx > 2` loads frames
`start_frame_idx - 2` and `start_frame_idx - 1` into both buffers. -/
def setupResume {Img : Type} (n : ℕ) (loadFrame : ℕ → Img)
    (s : ResumeState Img) : ResumeState Img :=
  if n > 2 then
    { startFrameIdx := n, diffusionCadenceOfs := n,
      priorFrames := [loadFrame (n - 2), loadFrame (n - 1)],
      priorDiffused := [loadFrame (n - 2), loadFrame (n - 1)] }
  else
    { s with startFrameIdx := n, diffusionCadenceOfs := n }

/-- Python `sorted` on integer keys, modelled by insertion sort (ascending,
stable). -/
def pySorted (keys : List ℤ) : List ℤ := List.insertionSort (· ≤ ·) keys

/-- Embeds `animation.py` lines 306-311 of `Animator.setup_animation`:
`self.key_frame_values = sorted(list(self.animation_prompts.keys()))`
`if self.key_frame_values[0] != 0: raise ValueError("First keyframe must be 0")`
`if len(self.key_frame_values) != len(set(self.key_frame_values)): raise ValueError(...)`.
Indexing `[0]` on an empty list raises as well, modelled by the first error. -/
def validateKeyFrames (keys : List ℤ) : Except String (List ℤ) :=
  match pySorted keys with
  | [] => Except.error "IndexError: list index out of range"
  | k :: _ =>
    if k ≠ 0 then Except.error "First keyframe must be 0"
    else if ¬ (pySorted keys).Nodup then Except.error "Duplicate keyframes are not allowed!"
    else Except.ok (pySorted keys)

/-- The observable outcome of constructing an `Animator` and draining its
`render` generator: `setup_animation` runs inside `__init__` (line 225) and
raises before `render` can execute, so on a validation error no frame is ever
produced; `renderOutput` stands for the frames `render` would write. -/
def animatorRun {Img : Type} (keys : List ℤ) (renderOutput : List Img) :
    Except String (List Img) :=
  match validateKeyFrames keys with
  | Except.error e => Except.error e
  | Except.ok _ => Except.ok renderOutput

/-- The three parallel window buffers of `Animator` (`animation.py`
lines 216-218): warped prior frames, last diffused frames and accumulated
transforms. -/
structure FrameWindow (Img : Type) where
  priorFrames : List Img
  priorDiffused : List Img
  priorXforms : List Mat4

/-- Result of a `transform_2d` call: the updated window, the returned
inpainting mask, and the number of `api.transform` requests issued. -/
structure Transform2dResult (Img : Type) where
  window : FrameWindow Img
  inpaintMask : Option Img
  backendRequests : ℕ

/-- Embeds `animation.py` lines 534-576, `Animator.transform_2d`.
`warp img m` stands for the backend `api.transform([img], [warp2d op with
matrix to_3x3(m)])` round trip (a deterministic function of its inputs);
`warpOp` stands for the non-accumulating `api.transform(prior_frames,
[warp2d_op(...)])` call of the `else` branch; `mkXform` stands for
`make_xform_2dm(args.width, args.height, math.radians(angle), scale, dx, dy)`
(kept abstract: its trigonometric entries play no role in the claims below).
The Python guards are `if not len(self.prior_frames): return None` and
`if angle == 0.0 and scale == 1.0 and dx == 0.0 and dy == 0.0: return None`,
both leaving all state untouched; the accumulate branch first updates every
running transform and then re-warps each diffused frame by its accumulated
transform (one backend request per slot). -/
def transform2d {Img : Type} (warp : Img → Mat4 → Img)
    (warpOp : List Img → ℚ → ℚ → ℚ → ℚ → List Img × Option Img)
    (mkXform : ℚ → ℚ → ℚ → ℚ → Mat4) (accumulateFlag : Bool)
    (angle scale dx dy : ℚ) (w : FrameWindow Img) : Transform2dResult Img :=
  if w.priorFrames.length = 0 then ⟨w, none, 0⟩
  else if angle = 0 ∧ scale = 1 ∧ dx = 0 ∧ dy = 0 then ⟨w, none, 0⟩
  else if accumulateFlag then
    let xform := mkXform angle scale dx dy
    let newXforms := accumulateXforms xform w.priorXforms
    ⟨{ priorFrames := List.zipWith warp w.priorDiffused newXforms,
       priorDiffused := w.priorDiffused,
       priorXforms := newXforms }, none, w.priorDiffused.length⟩
  else
    let r := warpOp w.priorFrames angle scale dx dy
    ⟨{ w with priorFrames := r.1 }, r.2, 1⟩

/-- The alternative the spec declares the fast path equivalent to, written
from the spec text: accumulate an identity incremental transform onto every
slot and re-warp the diffused frames by the (unchanged) accumulated
transforms. -/
def identityAccumulateRewarp {Img : Type} (warp : Img → Mat4 → Img)
    (w : FrameWindow Img) : FrameWindow Img :=
  { priorFrames := List.zipWith warp w.priorDiffused
      (accumulateXforms matrixIdentity w.priorXforms),
    priorDiffused := w.priorDiffused,
    priorXforms := accumulateXforms matrixIdentity w.priorXforms }

/-- Embeds `animation.py` line 436:
`diffusion_cadence = max(1, int(self.frame_args.diffusion_cadence_series[frame_idx]))`. -/
def cadenceAt (cadenceSeries : FrameSeries) (f : ℕ) : ℤ :=
  max 1 (pyint (cadenceSeries f))

/-- The per-frame cadence as the claim words it, with rounding to nearest in
place of the truncation the code performs. -/
def cadenceSpecRound (cadenceSeries : FrameSeries) (f : ℕ) : ℤ :=
  max 1 (round (cadenceSeries f))

/-- Whether a frame of the render loop ran a full backend synthesis
(`SYNTHESIZE`) or was produced by interpolation (`TWEEN`). -/
inductive FrameKind
  | synthesize
  | tween
  deriving DecidableEq, Repr

/-- Observable per-frame record of the render loop: the scheduling decision,
how many `api.generate` and `api.interpolate` calls were issued, and the
emitted frame. -/
structure FrameTrace (Img : Type) where
  kind : FrameKind
  generateCalls : ℕ
  interpolateCalls : ℕ
  out : Img

/-- The fixed inputs of a render run in 2D mode: the expanded parameter
series and the backend operations, as abstract deterministic functions.
`genImage f` stands for the image returned by `api.generate` on frame `f`
(its prompts, init frame and seed are determined by the run, so indexing by
`f` suffices); `interpImage a b r` for `api.interpolate([a, b], [r], mode)`;
`warp`, `warpOp` and `mkXform` are as in `transform2d`. -/
structure RenderEnv (Img : Type) where
  cadenceSeries : FrameSeries
  angleSeries : FrameSeries
  zoomSeries : FrameSeries
  translationXSeries : FrameSeries
  translationYSeries : FrameSeries
  genImage : ℕ → Img
  interpImage : Img → Img → ℚ → Img
  warp : Img → Mat4 → Img
  warpOp : List Img → ℚ → ℚ → ℚ → ℚ → List Img × Option Img
  mkXform : ℚ → ℚ → ℚ → ℚ → Mat4
  accumulateFlag : Bool

/-- The loop state of `Animator.render`: the next frame index, the cadence
offset `diffusion_cadence_ofs`, and the frame window. -/
structure RenderState (Img : Type) where
  frameIdx : ℕ
  diffusionCadenceOfs : ℕ
  window : FrameWindow Img

/-- The transform phase of one loop iteration (`animation.py` lines 450-451
in 2D mode): `transform_2d` applied at the current frame's series values. -/
def transformPhase {Img : Type} (env : RenderEnv Img) (s : RenderState Img) :
    FrameWindow Img :=
  (transform2d env.warp env.warpOp env.mkXform env.accumulateFlag
    (env.angleSeries s.frameIdx) (env.zoomSeries s.frameIdx)
    (env.translationXSeries s.frameIdx) (env.translationYSeries s.frameIdx)
    s.window).window

/-- Embeds `animation.py` lines 496-499: on a synthesis event with an empty
window, all three buffers are first seeded from the newly generated image. -/
def seedIfEmpty {Img : Type} (image : Img) (w : FrameWindow Img) : FrameWindow Img :=
  if w.priorFrames.length = 0 then
    ⟨[image, image], [image, image], [matrixIdentity, matrixIdentity]⟩
  else w

/-- One iteration of the render loop (`animation.py` lines 435-522) in 2D
mode without mask, inpaint-border or depth-map side channels (none of which
touch the scheduling decision or the window lengths).  A frame is a
synthesis frame iff `(frame_idx - diffusion_cadence_ofs) % diffusion_cadence
== 0` (line 470); on synthesis the window advances (lines 501-504) and the
emitted frame is the new image when the cadence is 1, else the held slot 0
(line 505); otherwise the two window endpoints are interpolated at
`((frame_idx - ofs) % cadence) / cadence` (lines 508-513).  The `getD`
defaults are never reached on the states the run produces (Python would
raise `IndexError` there). -/
def renderStep {Img : Type} (env : RenderEnv Img) (s : RenderState Img) :
    RenderState Img × FrameTrace Img :=
  let f := s.frameIdx
  let c := cadenceAt env.cadenceSeries f
  let w1 := transformPhase env s
  if ((f : ℤ) - (s.diffusionCadenceOfs : ℤ)) % c = 0 then
    let image := env.genImage f
    let w2 := seedIfEmpty image w1
    let w3 : FrameWindow Img :=
      ⟨[w2.priorFrames.getD 1 image, image],
       [w2.priorDiffused.getD 1 image, image],
       [w2.priorXforms.getD 1 matrixIdentity, matrixIdentity]⟩
    (⟨f + 1, f, w3⟩,
     ⟨FrameKind.synthesize, 1, 0, if c = 1 then image else w3.priorFrames.getD 0 image⟩)
  else
    let tween : ℚ := ((((f : ℤ) - (s.diffusionCadenceOfs : ℤ)) % c : ℤ) : ℚ) / (c : ℚ)
    (⟨f + 1, s.diffusionCadenceOfs, w1⟩,
     ⟨FrameKind.tween, 0, 1,
      env.interpImage (w1.priorFrames.getD 0 (env.genImage f))
        (w1.priorFrames.getD 1 (env.genImage f)) tween⟩)

/-- The loop state before processing the `n`-th frame of the run. -/
def renderFrom {Img : Type} (env : RenderEnv Img) (s0 : RenderState Img) :
    ℕ → RenderState Img
  | 0 => s0
  | n + 1 => (renderStep env (renderFrom env s0 n)).1

/-- The scheduling decision taken at the `n`-th processed frame. -/
def decisionAt {Img : Type} (env : RenderEnv Img) (s0 : RenderState Img)
    (n : ℕ) : FrameKind :=
  (renderStep env (renderFrom env s0 n)).2.kind

/-- The frame indices of the synthesis frames among the first `n` processed
frames, in order. -/
def synthFramesUpTo {Img : Type} (env : RenderEnv Img) (s0 : RenderState Img)
    (n : ℕ) : List ℕ :=
  ((List.range n).filter
    (fun m => decide (decisionAt env s0 m = FrameKind.synthesize))).map
    (fun m => s0.frameIdx + m)

/-- The frame index at which the window was last synthesized before the
`n`-th processed frame, or the initial (start/resume) cadence offset when no
synthesis has happened yet. -/
def lastSynthOfs {Img : Type} (env : RenderEnv Img) (s0 : RenderState Img)
    (n : ℕ) : ℕ :=
  (synthFramesUpTo env s0 n).getLastD s0.diffusionCadenceOfs

/-- The window right after `Animator.setup_animation` on a fresh run with no
init image, no video input and no resume seeding: `__init__` leaves
`prior_frames` and `prior_diffused` empty (`animation.py` lines 216-218) and
`setup_animation` unconditionally sets `prior_xforms` to two identities
(line 314). -/
def setupWindowFresh (Img : Type) : FrameWindow Img :=
  ⟨[], [], [matrixIdentity, matrixIdentity]⟩

/-- The invariant the window state actually maintains: the two pixel buffers
have equal length 0 or 2, and the transform buffer always has length 2. -/
def windowInv {Img : Type} (w : FrameWindow Img) : Prop :=
  w.priorFrames.length = w.priorDiffused.length
  ∧ (w.priorFrames.length = 0 ∨ w.priorFrames.length = 2)
  ∧ w.priorXforms.length = 2

/-- A sample 2D environment over `ℕ` images: cadence 4, neutral motion
parameters, identity-like backend functions. -/
def sampleEnv : RenderEnv ℕ :=
  ⟨fun _ => 4, fun _ => 0, fun _ => 1, fun _ => 0, fun _ => 0,
   fun f => f, fun a _ _ => a, fun i _ => i,
   fun fr _ _ _ _ => (fr, none), fun _ _ _ _ => matrixIdentity, true⟩

/-- Python `bisect.bisect_right(keys, x)` on a sorted list: the rightmost
insertion point, i.e. the number of elements `<= x`. -/
def bisectRight (keys : List ℕ) (x : ℕ) : ℕ :=
  keys.countP (fun k => decide (k ≤ x))

/-- Embeds `animation.py` lines 245-255, `Animator.get_animation_prompts_weights`:
`idx = bisect.bisect_right(keys, frame_idx); prev, next = idx - 1, idx`
followed by the three-way branch on `interpolate_prompts` and `next ==
len(keys)`.  `animationPrompts` is the prompt dictionary, `keys` the sorted
`self.key_frame_values`.  Index arithmetic is in ℕ: Python would produce
`prev = -1` (and index from the end) only when no key is `<= frame_idx`,
which cannot happen in a valid schedule since key 0 is required and
`frame_idx >= 0`; `keys[-1]` is embedded as the element at `length - 1`. -/
def getAnimationPromptsWeights (animationPrompts : ℕ → String) (keys : List ℕ)
    (interpolatePrompts : Bool) (frameIdx : ℕ) : List String × List ℚ :=
  let idx := bisectRight keys frameIdx
  let prev := idx - 1
  if ¬ interpolatePrompts then
    ([animationPrompts (keys.getD (min (keys.length - 1) prev) 0)], [1])
  else if idx = keys.length then
    ([animationPrompts (keys.getD (keys.length - 1) 0)], [1])
  else
    let tween : ℚ := ((frameIdx : ℚ) - (keys.getD prev 0 : ℕ))
      / ((keys.getD idx 0 : ℕ) - (keys.getD prev 0 : ℕ))
    ([animationPrompts (keys.getD prev 0), animationPrompts (keys.getD idx 0)],
     [1 - tween, tween])

theorem pyint_of_nonneg {q : ℚ} (h : 0 ≤ q) : pyint q = ⌊q⌋ := by
  simp [pyint, h]

theorem pyint_five_le {q : ℚ} (h : (5 : ℚ) ≤ q) : (5 : ℤ) ≤ pyint q := by
  have h0 : (0 : ℚ) ≤ q := le_trans (by norm_num) h
  rw [pyint_of_nonneg h0]
  exact Int.le_floor.mpr (by exact_mod_cast h)

/-- C8: with steps-strength adjustment enabled the step count passed to the
backend is the truncation of `max(5, steps * (1 - strength))`, hence never
below 5 (`steps` being the truncated steps-series value and `strength` the
strength-series value clamped below at 0); with adjustment disabled it is the
unmodified truncation of the steps-series value. -/
theorem claim_C8_steps_strength_adjustment
    (stepsSeries strengthSeries : FrameSeries) (f : ℕ) :
    (adjustedSteps true stepsSeries strengthSeries f
        = pyint (max 5 ((stepsAt stepsSeries f : ℚ) * (1 - strengthAt strengthSeries f)))
      ∧ (5 : ℤ) ≤ adjustedSteps true stepsSeries strengthSeries f)
    ∧ adjustedSteps false stepsSeries strengthSeries f = pyint (stepsSeries f) := by
  refine ⟨⟨rfl, ?_⟩, rfl⟩
  exact pyint_five_le (le_max_left 5 _)

/-- C7: a non-empty negative prompt with nonzero weight `w` is appended with
weight exactly `-|w|`, which is negative regardless of the sign of `w`; an
empty negative prompt or zero weight appends nothing. -/
theorem claim_C7_negative_prompt_weight
    (prompts : List String) (weights : List ℚ) (np : String) (w : ℚ) :
    (np.length ≠ 0 → w ≠ 0 →
        appendNegativePrompt prompts weights np w = (prompts ++ [np], weights ++ [-|w|])
          ∧ -|w| < 0)
    ∧ ((np.length = 0 ∨ w = 0) →
        appendNegativePrompt prompts weights np w = (prompts, weights)) := by
  constructor
  · intro hnp hw
    refine ⟨by simp [appendNegativePrompt, hnp, hw], ?_⟩
    simpa using abs_pos.mpr hw
  · intro h
    rcases h with h | h <;> simp [appendNegativePrompt, h]

/-- Witness for C7 at the spec example: configured weight `+1/2` is emitted
as `-1/2`. -/
theorem claim_C7_negative_prompt_weight_witness :
    appendNegativePrompt [] [] "x" (1/2) = (["x"], [-(1/2)]) ∧ (-(1/2) : ℚ) < 0 := by
  have h := (claim_C7_negative_prompt_weight [] [] "x" (1/2)).1 (by decide) (by norm_num)
  refine ⟨?_, by norm_num⟩
  rw [h.1]
  norm_num

/-- C10: with a single ratio, `Api.interpolate` returns the first image at
ratio 0 and the second at ratio 1 (whatever the mode), and in linear mode
computes the in-between frame locally as `image_mix`; in all three cases no
backend request is issued. -/
theorem claim_C10_interpolate_local_paths {Img : Type}
    (backend : Img → Img → List ℚ → InterpolateMode → List Img)
    (mix : Img → Img → ℚ → Img) (a b : Img) (mode : InterpolateMode) (r : ℚ) :
    apiInterpolate backend mix a b [0] mode = some ⟨[a], 0⟩
    ∧ apiInterpolate backend mix a b [1] mode = some ⟨[b], 0⟩
    ∧ (r ≠ 0 → r ≠ 1 →
        apiInterpolate backend mix a b [r] InterpolateMode.linear
          = some ⟨[mix a b r], 0⟩) := by
  refine ⟨by norm_num [apiInterpolate], by norm_num [apiInterpolate], ?_⟩
  intro h0 h1
  simp [apiInterpolate, h0, h1]

/-- Witness for C10 on concrete images `3`, `5` with ratio `1/2`. -/
theorem claim_C10_interpolate_local_paths_witness :
    apiInterpolate (fun (_ _ : ℕ) _ _ => ([] : List ℕ)) (fun x y _ => x + y)
        3 5 [(1 : ℚ)/2] InterpolateMode.linear = some ⟨[8], 0⟩ := by
  have h := (claim_C10_interpolate_local_paths
      (fun (_ _ : ℕ) _ _ => ([] : List ℕ)) (fun x y _ => x + y)
      3 5 InterpolateMode.linear ((1 : ℚ)/2)).2.2 (by norm_num) (by norm_num)
  simpa using h

/-- C4: accumulation writes `incrementalTransform * priorTransforms[i]` into
every in-range slot (the loop shared by the 2D and 3D paths), and applying
increments `T1, T2, T3` sequentially starting from the identity yields
exactly the direct product `T3 * T2 * T1`. -/
theorem claim_C4_transform_accumulation (t1 t2 t3 xform : Mat4)
    (xs : List Mat4) (i : ℕ) (hi : i < xs.length) :
    (accumulateXforms xform xs).getD i matrixIdentity
        = matrixMultiply xform (xs.getD i matrixIdentity)
    ∧ accumulateXforms t3 (accumulateXforms t2 (accumulateXforms t1 [matrixIdentity]))
        = [matrixMultiply (matrixMultiply t3 t2) t1] := by
  constructor
  · simp [accumulateXforms, List.getD_eq_getElem?_getD, List.getElem?_map,
      List.getElem?_eq_getElem hi]
  · simp [accumulateXforms, matrixMultiply, matrixIdentity, mul_assoc]

/-- Witness for C4 at identity transforms and a two-slot window. -/
theorem claim_C4_transform_accumulation_witness :
    (accumulateXforms matrixIdentity [matrixIdentity, matrixIdentity]).getD 0 matrixIdentity
        = matrixMultiply matrixIdentity
            ([matrixIdentity, matrixIdentity].getD 0 matrixIdentity)
    ∧ accumulateXforms matrixIdentity
          (accumulateXforms matrixIdentity (accumulateXforms matrixIdentity [matrixIdentity]))
        = [matrixMultiply (matrixMultiply matrixIdentity matrixIdentity) matrixIdentity] :=
  claim_C4_transform_accumulation matrixIdentity matrixIdentity matrixIdentity
    matrixIdentity [matrixIdentity, matrixIdentity] 0 (by simp)

/-- C2 counterexample: with exactly `N = 2` frame files on disk the resume
block does NOT seed the window (the guard is `start_frame_idx > 2`), refuting
the claim that seeding occurs whenever at least two frame files exist. -/
theorem claim_C2_resume_counterexample :
    ¬ ((setupResume 2 (fun k => k) (⟨0, 0, [], []⟩ : ResumeState ℕ)).priorFrames = [0, 1]
      ∧ (setupResume 2 (fun k => k) (⟨0, 0, [], []⟩ : ResumeState ℕ)).priorDiffused
          = [0, 1]) := by
  decide

/-- C2 amended: resume always restarts at frame index `N` with cadence offset
`N`; the window is seeded from the frames `N-2` and `N-1` on disk exactly when
more than two frame files exist (`N > 2`), and is left untouched otherwise. -/
theorem claim_C2_resume_seeding {Img : Type} (n : ℕ) (loadFrame : ℕ → Img)
    (s : ResumeState Img) :
    ((setupResume n loadFrame s).startFrameIdx = n
      ∧ (setupResume n loadFrame s).diffusionCadenceOfs = n)
    ∧ (2 < n →
        (setupResume n loadFrame s).priorFrames = [loadFrame (n - 2), loadFrame (n - 1)]
        ∧ (setupResume n loadFrame s).priorDiffused
            = [loadFrame (n - 2), loadFrame (n - 1)])
    ∧ (n ≤ 2 →
        (setupResume n loadFrame s).priorFrames = s.priorFrames
        ∧ (setupResume n loadFrame s).priorDiffused = s.priorDiffused) := by
  by_cases h : 2 < n
  · refine ⟨⟨?_, ?_⟩, fun _ => ⟨?_, ?_⟩, fun hle => absurd h (not_lt.mpr hle)⟩ <;>
      simp [setupResume, h]
  · refine ⟨⟨?_, ?_⟩, fun hlt => absurd hlt h, fun _ => ⟨?_, ?_⟩⟩ <;>
      simp [setupResume, h]

/-- Witness for C2 amended at `N = 3` with `loadFrame = id`. -/
theorem claim_C2_resume_seeding_witness :
    ((setupResume 3 (fun k => k) (⟨0, 0, [], []⟩ : ResumeState ℕ)).startFrameIdx = 3
      ∧ (setupResume 3 (fun k => k) (⟨0, 0, [], []⟩ : ResumeState ℕ)).diffusionCadenceOfs = 3)
    ∧ ((setupResume 3 (fun k => k) (⟨0, 0, [], []⟩ : ResumeState ℕ)).priorFrames = [1, 2]
      ∧ (setupResume 3 (fun k => k) (⟨0, 0, [], []⟩ : ResumeState ℕ)).priorDiffused
          = [1, 2]) := by
  have h := claim_C2_resume_seeding 3 (fun k => k) (⟨0, 0, [], []⟩ : ResumeState ℕ)
  exact ⟨h.1, h.2.1 (by decide)⟩

theorem validateKeyFrames_invalid (keys : List ℤ)
    (h : (0 : ℤ) ∉ keys ∨ ¬ keys.Nodup) :
    ∃ e, validateKeyFrames keys = Except.error e := by
  have hperm : List.Perm (pySorted keys) keys := List.perm_insertionSort _ keys
  unfold validateKeyFrames
  cases hs : pySorted keys with
  | nil => exact ⟨_, rfl⟩
  | cons k tl =>
    rw [hs] at hperm
    by_cases hk : k = 0
    · subst hk
      have h0mem : (0 : ℤ) ∈ keys :=
        hperm.mem_iff.mp (List.mem_cons_self _ _)
      have hnd : ¬ keys.Nodup := by
        rcases h with h | h
        · exact absurd h0mem h
        · exact h
      have hnd2 : ¬ ((0 : ℤ) :: tl).Nodup := fun hd => hnd (hperm.nodup_iff.mp hd)
      exact ⟨"Duplicate keyframes are not allowed!", by simp [hnd2]⟩
    · exact ⟨"First keyframe must be 0", by simp [hk]⟩

/-- C9: a prompt schedule with no keyframe at index 0, or with duplicate
keyframe indices, makes `Animator` construction fail during
`setup_animation` (called from `__init__`), so the run produces an error and
no frames. -/
theorem claim_C9_invalid_schedule_fails {Img : Type} (keys : List ℤ)
    (renderOutput : List Img) (h : (0 : ℤ) ∉ keys ∨ ¬ keys.Nodup) :
    ∃ e, animatorRun keys renderOutput = Except.error e := by
  obtain ⟨e, he⟩ := validateKeyFrames_invalid keys h
  exact ⟨e, by simp [animatorRun, he]⟩

/-- Witness for C9 on the schedule `{1, 2}` which lacks a frame-0 keyframe. -/
theorem claim_C9_invalid_schedule_fails_witness :
    ∃ e, animatorRun [1, 2] ([] : List ℕ) = Except.error e :=
  claim_C9_invalid_schedule_fails [1, 2] [] (Or.inl (by decide))

theorem accumulateXforms_identity (xs : List Mat4) :
    accumulateXforms matrixIdentity xs = xs := by
  simp [accumulateXforms, matrixMultiply, matrixIdentity]

/-- C5 counterexample: on a window whose `priorFrames` are not the warps of
`priorDiffused` by the accumulated transforms, the neutral-parameter skip is
NOT equivalent to accumulating an identity transform and re-warping, even
though the warp backend is a fixed (deterministic) function: the skip keeps
`priorFrames = [1, 1]` while the re-warp path produces `[0, 0]`. -/
theorem claim_C5_identity_equivalence_counterexample :
    (transform2d (fun (_ : ℕ) (_ : Mat4) => 0) (fun fr _ _ _ _ => (fr, none))
        (fun _ _ _ _ => matrixIdentity) true 0 1 0 0
        ⟨[1, 1], [1, 1], [matrixIdentity, matrixIdentity]⟩).window.priorFrames
      ≠ (identityAccumulateRewarp (fun (_ : ℕ) (_ : Mat4) => 0)
        ⟨[1, 1], [1, 1], [matrixIdentity, matrixIdentity]⟩).priorFrames := by
  simp [transform2d, identityAccumulateRewarp, accumulateXforms]

/-- C5 amended: for neutral 2D parameters `transform_2d` issues no backend
request, returns no mask, and leaves the whole window untouched; and whenever
the window is warp-consistent (`priorFrames` are the warps of `priorDiffused`
by the accumulated transforms, as the re-warp loop itself establishes), this
skip is bit-for-bit the same window state as accumulating an identity
transform and re-warping with the unchanged accumulated transforms. -/
theorem claim_C5_neutral_fast_path {Img : Type} (warp : Img → Mat4 → Img)
    (warpOp : List Img → ℚ → ℚ → ℚ → ℚ → List Img × Option Img)
    (mkXform : ℚ → ℚ → ℚ → ℚ → Mat4) (accumulateFlag : Bool)
    (w : FrameWindow Img)
    (hcons : w.priorFrames = List.zipWith warp w.priorDiffused w.priorXforms) :
    transform2d warp warpOp mkXform accumulateFlag 0 1 0 0 w = ⟨w, none, 0⟩
    ∧ (transform2d warp warpOp mkXform accumulateFlag 0 1 0 0 w).window
        = identityAccumulateRewarp warp w := by
  have hskip : transform2d warp warpOp mkXform accumulateFlag 0 1 0 0 w
      = ⟨w, none, 0⟩ := by
    by_cases hlen : w.priorFrames.length = 0 <;> simp [transform2d, hlen]
  refine ⟨hskip, ?_⟩
  rw [hskip]
  show w = identityAccumulateRewarp warp w
  cases w with
  | mk fr df xf =>
    simp only [identityAccumulateRewarp, accumulateXforms_identity]
    exact congrArg (fun l => FrameWindow.mk l df xf) hcons

/-- Witness for C5 on a warp-consistent two-slot window over `ℕ` images. -/
theorem claim_C5_neutral_fast_path_witness :
    transform2d (fun (i : ℕ) (_ : Mat4) => i + 1) (fun fr _ _ _ _ => (fr, none))
        (fun _ _ _ _ => matrixIdentity) true 0 1 0 0
        ⟨[6, 8], [5, 7], [matrixIdentity, matrixIdentity]⟩
      = ⟨⟨[6, 8], [5, 7], [matrixIdentity, matrixIdentity]⟩, none, 0⟩
    ∧ (transform2d (fun (i : ℕ) (_ : Mat4) => i + 1) (fun fr _ _ _ _ => (fr, none))
        (fun _ _ _ _ => matrixIdentity) true 0 1 0 0
        ⟨[6, 8], [5, 7], [matrixIdentity, matrixIdentity]⟩).window
      = identityAccumulateRewarp (fun (i : ℕ) (_ : Mat4) => i + 1)
        ⟨[6, 8], [5, 7], [matrixIdentity, matrixIdentity]⟩ :=
  claim_C5_neutral_fast_path (fun (i : ℕ) (_ : Mat4) => i + 1)
    (fun fr _ _ _ _ => (fr, none)) (fun _ _ _ _ => matrixIdentity) true
    ⟨[6, 8], [5, 7], [matrixIdentity, matrixIdentity]⟩ (by simp)

theorem bisectRight_getD_iff (f : ℕ) :
    ∀ (keys : List ℕ), List.Pairwise (· < ·) keys →
      ∀ i, i < keys.length → (i < bisectRight keys f ↔ keys.getD i 0 ≤ f) := by
  intro keys
  induction keys with
  | nil => intro _ i hi; simp at hi
  | cons k tl ih =>
    intro hp i hi
    obtain ⟨hk, htl⟩ := List.pairwise_cons.mp hp
    by_cases hkf : k ≤ f
    · have hcount : bisectRight (k :: tl) f = bisectRight tl f + 1 := by
        simp [bisectRight, List.countP_cons, hkf]
      cases i with
      | zero => simpa [hcount] using hkf
      | succ j =>
        have hj : j < tl.length := by simpa using hi
        have hiter := ih htl j hj
        simpa [hcount, Nat.succ_lt_succ_iff, List.getD_cons_succ] using hiter
    · have hfk : f < k := lt_of_not_le hkf
      have hcount : bisectRight (k :: tl) f = 0 := by
        refine List.countP_eq_zero.mpr ?_
        intro x hx
        rcases List.mem_cons.mp hx with rfl | hx2
        · simpa using hkf
        · have hkx := hk x hx2
          simp only [decide_eq_true_eq]
          omega
      rw [hcount]
      simp only [Nat.not_lt_zero, false_iff, not_le]
      have hmem : (k :: tl).getD i 0 ∈ k :: tl := by
        rw [List.getD_eq_getElem _ _ hi]
        exact List.getElem_mem hi
      rcases List.mem_cons.mp hmem with he | hx2
      · rw [he]; exact hfk
      · have hkx := hk _ hx2
        omega

/-- C6: for a well-formed schedule (strictly sorted keys containing 0) and any
frame index: with interpolation off the resolver returns exactly the prompt of
the greatest keyframe at or before the frame with weight 1; with interpolation
on and the frame at or after the last keyframe it returns the last prompt with
weight 1; otherwise it returns the two bracketing prompts weighted
`(1 - tween, tween)` with `tween = (f - prevKey) / (nextKey - prevKey)`. -/
theorem claim_C6_prompt_resolution (P : ℕ → String) (keys : List ℕ) (f : ℕ)
    (hsort : List.Pairwise (· < ·) keys) (h0 : 0 ∈ keys) :
    (∃ k, k ∈ keys ∧ k ≤ f ∧ (∀ k2 ∈ keys, k2 ≤ f → k2 ≤ k) ∧
        getAnimationPromptsWeights P keys false f = ([P k], [1]))
    ∧ (keys.getD (keys.length - 1) 0 ≤ f →
        getAnimationPromptsWeights P keys true f
          = ([P (keys.getD (keys.length - 1) 0)], [1]))
    ∧ (f < keys.getD (keys.length - 1) 0 →
        ∃ i, i + 1 < keys.length ∧ keys.getD i 0 ≤ f ∧ f < keys.getD (i + 1) 0 ∧
          getAnimationPromptsWeights P keys true f
            = ([P (keys.getD i 0), P (keys.getD (i + 1) 0)],
               [1 - (((f : ℚ) - (keys.getD i 0 : ℕ))
                  / ((keys.getD (i + 1) 0 : ℕ) - (keys.getD i 0 : ℕ))),
                ((f : ℚ) - (keys.getD i 0 : ℕ))
                  / ((keys.getD (i + 1) 0 : ℕ) - (keys.getD i 0 : ℕ))])) := by
  have hne : keys ≠ [] := by rintro rfl; simp at h0
  have hn : 0 < keys.length := List.length_pos.mpr hne
  have H := bisectRight_getD_iff f keys hsort
  have hidxpos : 0 < bisectRight keys f :=
    List.countP_pos_iff.mpr ⟨0, h0, by simp⟩
  have hidxle : bisectRight keys f ≤ keys.length := List.countP_le_length _
  have hprevlt : bisectRight keys f - 1 < keys.length := by omega
  have hprevle : keys.getD (bisectRight keys f - 1) 0 ≤ f :=
    (H _ hprevlt).mp (by omega)
  have hmono : ∀ (j jk : ℕ), j < keys.length → jk < keys.length → j ≤ jk →
      keys.getD j 0 ≤ keys.getD jk 0 := by
    intro j jk hj hk hle
    rcases Nat.eq_or_lt_of_le hle with rfl | hlt
    · exact le_refl _
    · have hp := List.pairwise_iff_getElem.mp hsort j jk hj hk hlt
      rw [List.getD_eq_getElem _ _ hj, List.getD_eq_getElem _ _ hk]
      exact le_of_lt hp
  refine ⟨?_, ?_, ?_⟩
  · refine ⟨keys.getD (bisectRight keys f - 1) 0, ?_, hprevle, ?_, ?_⟩
    · rw [List.getD_eq_getElem _ _ hprevlt]
      exact List.getElem_mem _
    · intro k2 hk2 hk2le
      obtain ⟨j, hj, rfl⟩ := List.mem_iff_getElem.mp hk2
      have hjlt : j < bisectRight keys f :=
        (H j hj).mpr (by rwa [List.getD_eq_getElem _ _ hj])
      have hle2 := hmono j (bisectRight keys f - 1) hj hprevlt (by omega)
      rwa [List.getD_eq_getElem _ _ hj] at hle2
    · have hminEq : min (keys.length - 1) (bisectRight keys f - 1)
          = bisectRight keys f - 1 := by omega
      simp only [getAnimationPromptsWeights, Bool.false_eq_true, not_false_iff,
        if_true, hminEq]
  · intro hlast
    have hlastlt : keys.length - 1 < bisectRight keys f :=
      (H (keys.length - 1) (by omega)).mpr hlast
    have hidxeq : bisectRight keys f = keys.length := by omega
    simp [getAnimationPromptsWeights, hidxeq]
  · intro hlt
    have h1 : ¬ (keys.length - 1 < bisectRight keys f) := by
      intro hc
      exact absurd ((H (keys.length - 1) (by omega)).mp hc) (not_le.mpr hlt)
    have hidxlt : bisectRight keys f < keys.length := by omega
    have hne2 : bisectRight keys f ≠ keys.length := by omega
    have hnext : f < keys.getD (bisectRight keys f) 0 := by
      by_contra hc
      push_neg at hc
      exact absurd ((H _ hidxlt).mpr hc) (lt_irrefl _)
    have heq : bisectRight keys f - 1 + 1 = bisectRight keys f := by omega
    refine ⟨bisectRight keys f - 1, by omega, hprevle, ?_, ?_⟩
    · rw [heq]; exact hnext
    · rw [heq]
      simp [getAnimationPromptsWeights, hne2]

/-- Witness for C6 on the schedule `{0, 2}` at frame 1: one prompt with the
interpolator off, the bracketing pair with weights `(1/2, 1/2)` with it on. -/
theorem claim_C6_prompt_resolution_witness :
    (∃ k, k ∈ [0, 2] ∧ k ≤ 1 ∧ (∀ k2 ∈ [0, 2], k2 ≤ 1 → k2 ≤ k) ∧
        getAnimationPromptsWeights (fun n => toString n) [0, 2] false 1 = ([toString k], [1]))
    ∧ ([0, 2].getD ([0, 2].length - 1) 0 ≤ 1 →
        getAnimationPromptsWeights (fun n => toString n) [0, 2] true 1
          = ([toString ([0, 2].getD ([0, 2].length - 1) 0)], [1]))
    ∧ (1 < [0, 2].getD ([0, 2].length - 1) 0 →
        ∃ i, i + 1 < [0, 2].length ∧ [0, 2].getD i 0 ≤ 1 ∧ 1 < [0, 2].getD (i + 1) 0 ∧
          getAnimationPromptsWeights (fun n => toString n) [0, 2] true 1
            = ([toString ([0, 2].getD i 0), toString ([0, 2].getD (i + 1) 0)],
               [1 - ((((1 : ℕ) : ℚ) - ([0, 2].getD i 0 : ℕ))
                  / (([0, 2].getD (i + 1) 0 : ℕ) - ([0, 2].getD i 0 : ℕ))),
                (((1 : ℕ) : ℚ) - ([0, 2].getD i 0 : ℕ))
                  / (([0, 2].getD (i + 1) 0 : ℕ) - ([0, 2].getD i 0 : ℕ))])) :=
  claim_C6_prompt_resolution (fun n => toString n) [0, 2] 1 (by decide) (by decide)

theorem getLastD_append_singleton (a : ℕ) (l : List ℕ) :
    ∀ d, (l ++ [a]).getLastD d = a := by
  induction l with
  | nil => intro d; rfl
  | cons x xs ih => intro d; rw [List.cons_append, List.getLastD_cons]; exact ih x

theorem renderStep_frameIdx {Img : Type} (env : RenderEnv Img) (s : RenderState Img) :
    (renderStep env s).1.frameIdx = s.frameIdx + 1 := by
  by_cases h : ((s.frameIdx : ℤ) - (s.diffusionCadenceOfs : ℤ))
      % cadenceAt env.cadenceSeries s.frameIdx = 0 <;>
    simp [renderStep, h]

theorem renderStep_kind_iff {Img : Type} (env : RenderEnv Img) (s : RenderState Img) :
    (renderStep env s).2.kind = FrameKind.synthesize
      ↔ ((s.frameIdx : ℤ) - (s.diffusionCadenceOfs : ℤ))
          % cadenceAt env.cadenceSeries s.frameIdx = 0 := by
  by_cases h : ((s.frameIdx : ℤ) - (s.diffusionCadenceOfs : ℤ))
      % cadenceAt env.cadenceSeries s.frameIdx = 0 <;>
    simp [renderStep, h]

theorem renderStep_ofs {Img : Type} (env : RenderEnv Img) (s : RenderState Img) :
    (renderStep env s).1.diffusionCadenceOfs
      = if (renderStep env s).2.kind = FrameKind.synthesize then s.frameIdx
        else s.diffusionCadenceOfs := by
  by_cases h : ((s.frameIdx : ℤ) - (s.diffusionCadenceOfs : ℤ))
      % cadenceAt env.cadenceSeries s.frameIdx = 0 <;>
    simp [renderStep, h]

theorem renderFrom_frameIdx {Img : Type} (env : RenderEnv Img) (s0 : RenderState Img) :
    ∀ n, (renderFrom env s0 n).frameIdx = s0.frameIdx + n
  | 0 => rfl
  | n + 1 => by
    rw [renderFrom, renderStep_frameIdx, renderFrom_frameIdx env s0 n]
    omega

theorem renderFrom_ofs {Img : Type} (env : RenderEnv Img) (s0 : RenderState Img) :
    ∀ n, (renderFrom env s0 n).diffusionCadenceOfs = lastSynthOfs env s0 n
  | 0 => rfl
  | n + 1 => by
    have hstep := renderStep_ofs env (renderFrom env s0 n)
    have hrange : synthFramesUpTo env s0 (n + 1)
        = synthFramesUpTo env s0 n
          ++ (if decisionAt env s0 n = FrameKind.synthesize
              then [s0.frameIdx + n] else []) := by
      by_cases hd : decisionAt env s0 n = FrameKind.synthesize <;>
        simp [synthFramesUpTo, List.range_succ, List.filter_append, hd]
    rw [renderFrom]
    rw [hstep]
    by_cases hd : decisionAt env s0 n = FrameKind.synthesize
    · have hd2 : (renderStep env (renderFrom env s0 n)).2.kind
          = FrameKind.synthesize := hd
      rw [if_pos hd2, lastSynthOfs, hrange, if_pos hd,
        getLastD_append_singleton, renderFrom_frameIdx]
    · have hd2 : ¬ (renderStep env (renderFrom env s0 n)).2.kind
          = FrameKind.synthesize := hd
      rw [if_neg hd2, lastSynthOfs, hrange, if_neg hd, List.append_nil,
        renderFrom_ofs env s0 n, lastSynthOfs]

/-- C1 amended: per frame the cadence is `max(1, int(cadenceSeries[f]))`,
i.e. the truncation (not the rounding) of the cadence-series value floored at
1; a frame is a `SYNTHESIZE` frame (exactly one `api.generate` call) iff
`(f - offset) mod cadence == 0` where `offset` is the frame index at which
the window was last synthesized, or the start/resume cadence offset before
any synthesis; every other frame is a `TWEEN` frame (exactly one
`api.interpolate` call). -/
theorem claim_C1_cadence_scheduler {Img : Type} (env : RenderEnv Img)
    (s0 : RenderState Img) (n : ℕ) :
    cadenceAt env.cadenceSeries (s0.frameIdx + n)
        = max 1 (pyint (env.cadenceSeries (s0.frameIdx + n)))
    ∧ (decisionAt env s0 n = FrameKind.synthesize
        ↔ (((s0.frameIdx + n : ℕ) : ℤ) - (lastSynthOfs env s0 n : ℤ))
            % cadenceAt env.cadenceSeries (s0.frameIdx + n) = 0)
    ∧ (decisionAt env s0 n = FrameKind.synthesize
        ↔ (renderStep env (renderFrom env s0 n)).2.generateCalls = 1
            ∧ (renderStep env (renderFrom env s0 n)).2.interpolateCalls = 0)
    ∧ (decisionAt env s0 n = FrameKind.tween
        ↔ (renderStep env (renderFrom env s0 n)).2.generateCalls = 0
            ∧ (renderStep env (renderFrom env s0 n)).2.interpolateCalls = 1) := by
  refine ⟨rfl, ?_, ?_, ?_⟩
  · rw [decisionAt, renderStep_kind_iff, renderFrom_frameIdx, renderFrom_ofs]
  · rw [decisionAt]
    by_cases h : (((renderFrom env s0 n).frameIdx : ℤ)
        - ((renderFrom env s0 n).diffusionCadenceOfs : ℤ))
          % cadenceAt env.cadenceSeries (renderFrom env s0 n).frameIdx = 0 <;>
      simp [renderStep, h]
  · rw [decisionAt]
    by_cases h : (((renderFrom env s0 n).frameIdx : ℤ)
        - ((renderFrom env s0 n).diffusionCadenceOfs : ℤ))
          % cadenceAt env.cadenceSeries (renderFrom env s0 n).frameIdx = 0 <;>
      simp [renderStep, h]

/-- C1 counterexample: the code truncates the cadence-series value while the
claim rounds it; at series value `4.7` the code uses cadence 4, the claimed
formula gives 5. -/
theorem claim_C1_cadence_round_counterexample :
    cadenceAt (fun _ => 47/10) 0 ≠ cadenceSpecRound (fun _ => 47/10) 0 := by
  have h1 : (⌊(47/10 : ℚ)⌋ : ℤ) = 4 := by
    rw [Int.floor_eq_iff]
    norm_num
  have h2 : round (47/10 : ℚ) = 5 := by
    rw [round_eq]
    have h3 : (47/10 : ℚ) + 1/2 = 26/5 := by norm_num
    rw [h3, Int.floor_eq_iff]
    norm_num
  have hps : pyint (47/10) = 4 := by
    rw [pyint, if_pos (by norm_num)]
    exact h1
  simp only [cadenceAt, cadenceSpecRound, hps, h2]
  norm_num

theorem transform2d_lengths {Img : Type} (warp : Img → Mat4 → Img)
    (warpOp : List Img → ℚ → ℚ → ℚ → ℚ → List Img × Option Img)
    (mkXform : ℚ → ℚ → ℚ → ℚ → Mat4) (flag : Bool) (angle scale dx dy : ℚ)
    (w : FrameWindow Img)
    (hwlen : ∀ fr a b c d, (warpOp fr a b c d).1.length = fr.length)
    (hinv : windowInv w) :
    (transform2d warp warpOp mkXform flag angle scale dx dy w).window.priorFrames.length
        = w.priorFrames.length
    ∧ (transform2d warp warpOp mkXform flag angle scale dx dy w).window.priorDiffused
        = w.priorDiffused
    ∧ (transform2d warp warpOp mkXform flag angle scale dx dy w).window.priorXforms.length
        = w.priorXforms.length := by
  obtain ⟨h1, h2, h3⟩ := hinv
  by_cases hE : w.priorFrames.length = 0
  · simp [transform2d, hE]
  by_cases hN : angle = 0 ∧ scale = 1 ∧ dx = 0 ∧ dy = 0
  · simp [transform2d, hE, hN]
  by_cases hF : flag = true
  · have hf2 : w.priorFrames.length = 2 := by
      rcases h2 with h0 | h2
      · exact absurd h0 hE
      · exact h2
    have hd2 : w.priorDiffused.length = 2 := by omega
    refine ⟨?_, ?_, ?_⟩ <;>
      simp [transform2d, hE, hN, hF, accumulateXforms, hd2, h3, hf2]
  · refine ⟨?_, ?_, ?_⟩ <;> simp [transform2d, hE, hN, hF, hwlen]

theorem windowInv_transformPhase {Img : Type} (env : RenderEnv Img)
    (s : RenderState Img)
    (hwlen : ∀ fr a b c d, (env.warpOp fr a b c d).1.length = fr.length)
    (hinv : windowInv s.window) :
    windowInv (transformPhase env s)
    ∧ (transformPhase env s).priorFrames.length = s.window.priorFrames.length := by
  obtain ⟨hl1, hl2, hl3⟩ :=
    transform2d_lengths env.warp env.warpOp env.mkXform env.accumulateFlag
      (env.angleSeries s.frameIdx) (env.zoomSeries s.frameIdx)
      (env.translationXSeries s.frameIdx) (env.translationYSeries s.frameIdx)
      s.window hwlen hinv
  obtain ⟨h1, h2, h3⟩ := hinv
  have hl1T : (transformPhase env s).priorFrames.length
      = s.window.priorFrames.length := hl1
  have hl2T : (transformPhase env s).priorDiffused = s.window.priorDiffused := hl2
  have hl3T : (transformPhase env s).priorXforms.length
      = s.window.priorXforms.length := hl3
  refine ⟨⟨?_, ?_, ?_⟩, hl1T⟩
  · rw [hl1T, hl2T]; exact h1
  · rw [hl1T]; exact h2
  · rw [hl3T]; exact h3

theorem renderStep_windowInv {Img : Type} (env : RenderEnv Img)
    (s : RenderState Img)
    (hwlen : ∀ fr a b c d, (env.warpOp fr a b c d).1.length = fr.length)
    (hinv : windowInv s.window) :
    windowInv (renderStep env s).1.window
    ∧ (s.window.priorFrames.length = 2 →
        (renderStep env s).1.window.priorFrames.length = 2)
    ∧ ((renderStep env s).2.kind = FrameKind.synthesize →
        (renderStep env s).1.window.priorFrames.length = 2
        ∧ (renderStep env s).1.window.priorDiffused.length = 2
        ∧ (renderStep env s).1.window.priorXforms.length = 2) := by
  obtain ⟨hphp, hlen⟩ := windowInv_transformPhase env s hwlen hinv
  by_cases hc : ((s.frameIdx : ℤ) - (s.diffusionCadenceOfs : ℤ))
      % cadenceAt env.cadenceSeries s.frameIdx = 0
  · refine ⟨⟨?_, Or.inr ?_, ?_⟩, fun _ => ?_, fun _ => ⟨?_, ?_, ?_⟩⟩ <;>
      simp [renderStep, hc]
  · have hres : (renderStep env s).1.window = transformPhase env s := by
      simp [renderStep, hc]
    have hkind : (renderStep env s).2.kind = FrameKind.tween := by
      simp [renderStep, hc]
    refine ⟨?_, ?_, ?_⟩
    · rw [hres]; exact hphp
    · intro h2; rw [hres, hlen]; exact h2
    · intro hk
      rw [hkind] at hk
      exact absurd hk (by simp)

theorem renderFrom_windowInv {Img : Type} (env : RenderEnv Img)
    (s0 : RenderState Img)
    (hwlen : ∀ fr a b c d, (env.warpOp fr a b c d).1.length = fr.length)
    (hinv : windowInv s0.window) :
    ∀ n, windowInv (renderFrom env s0 n).window
  | 0 => hinv
  | n + 1 => by
    rw [renderFrom]
    exact (renderStep_windowInv env (renderFrom env s0 n) hwlen
      (renderFrom_windowInv env s0 hwlen hinv n)).1

theorem renderFrom_length_two {Img : Type} (env : RenderEnv Img)
    (s0 : RenderState Img)
    (hwlen : ∀ fr a b c d, (env.warpOp fr a b c d).1.length = fr.length)
    (hstart : s0.frameIdx = s0.diffusionCadenceOfs)
    (hinv : windowInv s0.window) :
    ∀ n, 1 ≤ n → (renderFrom env s0 n).window.priorFrames.length = 2
  | 0 => by omega
  | 1 => by
    intro _
    have hc : ((s0.frameIdx : ℤ) - (s0.diffusionCadenceOfs : ℤ))
        % cadenceAt env.cadenceSeries s0.frameIdx = 0 := by
      rw [hstart]
      simp
    have hk : (renderStep env s0).2.kind = FrameKind.synthesize :=
      (renderStep_kind_iff env s0).mpr hc
    exact ((renderStep_windowInv env s0 hwlen hinv).2.2 hk).1
  | n + 2 => by
    intro _
    rw [renderFrom]
    exact (renderStep_windowInv env (renderFrom env s0 (n + 1)) hwlen
        (renderFrom_windowInv env s0 hwlen hinv (n + 1))).2.1
      (renderFrom_length_two env s0 hwlen hstart hinv (n + 1) (by omega))

theorem list_two_getD_drop {Img : Type} (l : List Img) (d x : Img)
    (hl : l.length = 2) : [l.getD 1 d, x] = l.drop 1 ++ [x] := by
  obtain ⟨a, b, rfl⟩ := List.length_eq_two.mp hl
  rfl

/-- C3 counterexample: right after a fresh setup (no init image, no video,
no resume) the pixel buffers are empty while `prior_xforms` already holds two
identities, so the three buffers do NOT have equal length at every reachable
state. -/
theorem claim_C3_equal_lengths_counterexample :
    ¬ ((setupWindowFresh ℕ).priorFrames.length
        = (setupWindowFresh ℕ).priorXforms.length) := by
  simp [setupWindowFresh]

/-- C3 amended: at every reachable state `priorFrames` and `priorDiffused`
have equal length 0 or 2 while `priorTransforms` always has length 2 (the
fresh-setup state has lengths 0, 0, 2); after every processed frame all three
have length 2; and on every synthesis event the three buffers advance
together — slot 0 is dropped, the newly synthesized image becomes slot 1 of
both pixel buffers, and the corresponding transform slot is reset to the
identity. -/
theorem claim_C3_window_buffers {Img : Type} (env : RenderEnv Img)
    (s0 : RenderState Img) (n : ℕ)
    (hwlen : ∀ fr a b c d, (env.warpOp fr a b c d).1.length = fr.length)
    (hstart : s0.frameIdx = s0.diffusionCadenceOfs)
    (hinv : windowInv s0.window) :
    windowInv (setupWindowFresh Img)
    ∧ windowInv (renderFrom env s0 n).window
    ∧ (1 ≤ n →
        (renderFrom env s0 n).window.priorFrames.length = 2
        ∧ (renderFrom env s0 n).window.priorDiffused.length = 2
        ∧ (renderFrom env s0 n).window.priorXforms.length = 2)
    ∧ (∀ s : RenderState Img, windowInv s.window →
        (renderStep env s).2.kind = FrameKind.synthesize →
        (renderStep env s).1.window.priorFrames
            = (seedIfEmpty (env.genImage s.frameIdx)
                (transformPhase env s)).priorFrames.drop 1
                ++ [env.genImage s.frameIdx]
        ∧ (renderStep env s).1.window.priorDiffused
            = (seedIfEmpty (env.genImage s.frameIdx)
                (transformPhase env s)).priorDiffused.drop 1
                ++ [env.genImage s.frameIdx]
        ∧ (renderStep env s).1.window.priorXforms
            = (seedIfEmpty (env.genImage s.frameIdx)
                (transformPhase env s)).priorXforms.drop 1
                ++ [matrixIdentity]) := by
  refine ⟨⟨rfl, Or.inl rfl, rfl⟩, renderFrom_windowInv env s0 hwlen hinv n, ?_, ?_⟩
  · intro hn
    have hf2 := renderFrom_length_two env s0 hwlen hstart hinv n hn
    obtain ⟨i1, _, i3⟩ := renderFrom_windowInv env s0 hwlen hinv n
    exact ⟨hf2, by omega, i3⟩
  · intro s hsinv hk
    have hc : ((s.frameIdx : ℤ) - (s.diffusionCadenceOfs : ℤ))
        % cadenceAt env.cadenceSeries s.frameIdx = 0 :=
      (renderStep_kind_iff env s).mp hk
    obtain ⟨⟨q1, q2, q3⟩, _⟩ := windowInv_transformPhase env s hwlen hsinv
    have hw2 : (seedIfEmpty (env.genImage s.frameIdx)
          (transformPhase env s)).priorFrames.length = 2
        ∧ (seedIfEmpty (env.genImage s.frameIdx)
          (transformPhase env s)).priorDiffused.length = 2
        ∧ (seedIfEmpty (env.genImage s.frameIdx)
          (transformPhase env s)).priorXforms.length = 2 := by
      by_cases hE : (transformPhase env s).priorFrames.length = 0
      · refine ⟨?_, ?_, ?_⟩ <;> simp [seedIfEmpty, hE]
      · have hf2 : (transformPhase env s).priorFrames.length = 2 := by
          rcases q2 with h0 | h2
          · exact absurd h0 hE
          · exact h2
        have hd2 : (transformPhase env s).priorDiffused.length = 2 := by omega
        refine ⟨?_, ?_, ?_⟩ <;> simp [seedIfEmpty, hE, hf2, hd2, q3]
    obtain ⟨hw2f, hw2d, hw2x⟩ := hw2
    have hres1 : (renderStep env s).1.window.priorFrames
        = [(seedIfEmpty (env.genImage s.frameIdx)
            (transformPhase env s)).priorFrames.getD 1 (env.genImage s.frameIdx),
           env.genImage s.frameIdx] := by
      simp [renderStep, hc]
    have hres2 : (renderStep env s).1.window.priorDiffused
        = [(seedIfEmpty (env.genImage s.frameIdx)
            (transformPhase env s)).priorDiffused.getD 1 (env.genImage s.frameIdx),
           env.genImage s.frameIdx] := by
      simp [renderStep, hc]
    have hres3 : (renderStep env s).1.window.priorXforms
        = [(seedIfEmpty (env.genImage s.frameIdx)
            (transformPhase env s)).priorXforms.getD 1 matrixIdentity,
           matrixIdentity] := by
      simp [renderStep, hc]
    refine ⟨?_, ?_, ?_⟩
    · rw [hres1]; exact list_two_getD_drop _ _ _ hw2f
    · rw [hres2]; exact list_two_getD_drop _ _ _ hw2d
    · rw [hres3]; exact list_two_getD_drop _ _ _ hw2x

/-- Witness for C3 on `sampleEnv` from the fresh-setup state, one frame in. -/
theorem claim_C3_window_buffers_witness :
    windowInv (setupWindowFresh ℕ)
    ∧ windowInv (renderFrom sampleEnv ⟨0, 0, setupWindowFresh ℕ⟩ 1).window
    ∧ (1 ≤ 1 →
        (renderFrom sampleEnv ⟨0, 0, setupWindowFresh ℕ⟩ 1).window.priorFrames.length = 2
        ∧ (renderFrom sampleEnv ⟨0, 0, setupWindowFresh ℕ⟩ 1).window.priorDiffused.length = 2
        ∧ (renderFrom sampleEnv ⟨0, 0, setupWindowFresh ℕ⟩ 1).window.priorXforms.length = 2)
    ∧ (∀ s : RenderState ℕ, windowInv s.window →
        (renderStep sampleEnv s).2.kind = FrameKind.synthesize →
        (renderStep sampleEnv s).1.window.priorFrames
            = (seedIfEmpty (sampleEnv.genImage s.frameIdx)
                (transformPhase sampleEnv s)).priorFrames.drop 1
                ++ [sampleEnv.genImage s.frameIdx]
        ∧ (renderStep sampleEnv s).1.window.priorDiffused
            = (seedIfEmpty (sampleEnv.genImage s.frameIdx)
                (transformPhase sampleEnv s)).priorDiffused.drop 1
                ++ [sampleEnv.genImage s.frameIdx]
        ∧ (renderStep sampleEnv s).1.window.priorXforms
            = (seedIfEmpty (sampleEnv.genImage s.frameIdx)
                (transformPhase sampleEnv s)).priorXforms.drop 1
                ++ [matrixIdentity]) :=
  claim_C3_window_buffers sampleEnv ⟨0, 0, setupWindowFresh ℕ⟩ 1
    (fun _ _ _ _ _ => rfl) rfl ⟨rfl, Or.inl rfl, rfl⟩

end StabilitySDK
